import Mathlib

/-!
Shallow embedding of the SBOM background-generation pipeline
(`src/service/sbom/sbom_src.py`, `src/service/sbom/dx_ctl.py`,
`src/api/sbom.py`) and proofs about the behaviour its specification
describes.

Paths are modelled as lists of path components (the result of splitting a
POSIX path on the separator).  Machine integers of the Python source are
modelled as `Nat`/`Int`; no overflow is relevant at the widths involved.
-/

namespace Sbom

/-! ## Path model

`Path.resolve(strict=False)` followed by `os.path.commonpath` comparison in
`_is_within_directory` is modelled on component lists: `normComps`
normalises away `.` and `..` components exactly as lexical resolution of an
absolute path does (a `..` at the root stays at the root, as
`Path("/..").resolve() == Path("/")`). -/

/-- Lexical normalisation of a component list: drop `.`, let `..` remove the
preceding component (no effect at the root). -/
def normComps (comps : List String) : List String :=
  comps.foldl
    (fun acc c =>
      if c == (".") then acc
      else if c == ("..") then acc.dropLast
      else acc ++ [c])
    []

/-- Split a character list at every `/` (the chunks `str.split("/")`
produces, empties included). -/
def splitSlash : List Char → List Char → List String
  | [], acc => [String.mk acc.reverse]
  | c :: cs, acc =>
    if c == ('/') then String.mk acc.reverse :: splitSlash cs []
    else splitSlash cs (c :: acc)

/-- Split a member name into path components the way `pathlib` does when it
is joined onto the extraction directory: split on `/`, dropping empty and
`.` components. -/
def parseRel (s : String) : List String :=
  (splitSlash s.data []).filter (fun c => (c != ("")) && (c != (".")))

/-- The absolute-path / drive-letter test of `_safe_extract_zip` and
`_safe_extract_tar`: `name.startswith(("/", "\\")) or ":" in name`. -/
def nameStartsBad (s : String) : Bool :=
  (match s.data with
   | [] => false
   | c :: _ => c == ('/') || c == ('\\')) ||
    s.data.contains (':')

/-- `_is_within_directory(base, target)`: both sides resolved, then
`os.path.commonpath([base, target]) == base`, i.e. the normalised base is a
component-prefix of the normalised target. -/
def isWithinDirectory (base target : List String) : Bool :=
  (normComps base).isPrefixOf (normComps target)

/-! ## Archive extraction (`_safe_extract_zip` / `_safe_extract_tar`)

The Python functions return `(ok, message-string)`; each distinct `return
False, ...` site is mapped to its own error constructor so that the error
taxonomy of the specification (`PathTraversal`, `UnsafeMember`,
`QuotaExceeded`, `UnsupportedFormat`) can be read off the result. -/

/-- One entry of `zipfile.ZipFile.infolist()`.  `isSymlink` records the
symlink bit carried in `ZipInfo.external_attr`; `_safe_extract_zip` never
reads that attribute. -/
structure ZipInfo where
  filename : String
  fileSize : Nat
  isSymlink : Bool
deriving Repr, DecidableEq

/-- One entry of `tarfile.TarFile.getmembers()`.  `size` may be any integer
(the source clamps with `max(0, int(... or 0))`). -/
structure TarMember where
  name : String
  size : Int
  isSym : Bool
  isLnk : Bool
deriving Repr, DecidableEq

/-- Error site of the extraction functions, one constructor per `return
False` branch of the source. -/
inductive ExtractErr where
  | quotaFiles : Nat → Nat → ExtractErr
  | quotaSize : Nat → ExtractErr
  | absPath : String → ExtractErr
  | traversal : String → ExtractErr
  | linkMember : String → ExtractErr
  | unsupportedFormat : ExtractErr
deriving Repr, DecidableEq

deriving instance DecidableEq for Except

/-- The specification's `PathTraversal` class covers the absolute-path /
drive-letter rejection and the resolved-outside rejection. -/
def isPathTraversalErr : ExtractErr → Bool
  | .absPath _ => true
  | .traversal _ => true
  | _ => false

/-- The specification's `QuotaExceeded` class. -/
def isQuotaErr : ExtractErr → Bool
  | .quotaFiles _ _ => true
  | .quotaSize _ => true
  | _ => false

/-- The per-member loop of `_safe_extract_zip`, in source order: the
member's declared size is added to the running total and checked first,
then the absolute-path test, then the containment test. -/
def zipLoop (maxSize : Nat) (extractDir : List String) (total : Nat) :
    List ZipInfo → Except ExtractErr Unit
  | [] => .ok ()
  | info :: rest =>
    let total2 := total + info.fileSize
    if total2 > maxSize then .error (.quotaSize maxSize)
    else if nameStartsBad info.filename then .error (.absPath info.filename)
    else if ! isWithinDirectory extractDir (extractDir ++ parseRel info.filename) then
      .error (.traversal info.filename)
    else zipLoop maxSize extractDir total2 rest

/-- `_safe_extract_zip`: member-count ceiling first, then the per-member
loop; `zf.extractall` runs only after every member passed. -/
def safeExtractZip (maxFiles maxSize : Nat) (extractDir : List String)
    (infos : List ZipInfo) : Except ExtractErr Unit :=
  if infos.length > maxFiles then .error (.quotaFiles infos.length maxFiles)
  else zipLoop maxSize extractDir 0 infos

/-- The per-member loop of `_safe_extract_tar`, in source order: the
absolute-path test, then the link-member test, then the size ceiling, then
the containment test. -/
def tarLoop (maxSize : Nat) (extractDir : List String) (total : Nat) :
    List TarMember → Except ExtractErr Unit
  | [] => .ok ()
  | m :: rest =>
    if nameStartsBad m.name then .error (.absPath m.name)
    else if m.isSym || m.isLnk then .error (.linkMember m.name)
    else
      let total2 := total + (max 0 m.size).toNat
      if total2 > maxSize then .error (.quotaSize maxSize)
      else if ! isWithinDirectory extractDir (extractDir ++ parseRel m.name) then
        .error (.traversal m.name)
      else tarLoop maxSize extractDir total2 rest

/-- `_safe_extract_tar`: member-count ceiling first, then the per-member
loop; `tar.extractall` runs only after every member passed. -/
def safeExtractTar (maxFiles maxSize : Nat) (extractDir : List String)
    (members : List TarMember) : Except ExtractErr Unit :=
  if members.length > maxFiles then .error (.quotaFiles members.length maxFiles)
  else tarLoop maxSize extractDir 0 members

/-- Resolved destination paths written by `zf.extractall` — written only
when every check passed, nothing is written on any error return. -/
def zipWritten (maxFiles maxSize : Nat) (extractDir : List String)
    (infos : List ZipInfo) : List (List String) :=
  match safeExtractZip maxFiles maxSize extractDir infos with
  | .ok _ => infos.map (fun i => normComps (extractDir ++ parseRel i.filename))
  | .error _ => []

/-- Resolved destination paths written by `tar.extractall` — written only
when every check passed, nothing is written on any error return. -/
def tarWritten (maxFiles maxSize : Nat) (extractDir : List String)
    (members : List TarMember) : List (List String) :=
  match safeExtractTar maxFiles maxSize extractDir members with
  | .ok _ => members.map (fun m => normComps (extractDir ++ parseRel m.name))
  | .error _ => []

/-- A zip member that claim C1 is about: absolute / drive-letter name or a
resolved location outside the destination. -/
def badZipMember (extractDir : List String) (i : ZipInfo) : Bool :=
  nameStartsBad i.filename ||
    ! isWithinDirectory extractDir (extractDir ++ parseRel i.filename)

/-- The tar analogue of `badZipMember`. -/
def badTarMember (extractDir : List String) (m : TarMember) : Bool :=
  nameStartsBad m.name ||
    ! isWithinDirectory extractDir (extractDir ++ parseRel m.name)

/-- Cumulative declared uncompressed size of a zip archive. -/
def zipSizeSum (infos : List ZipInfo) : Nat :=
  (infos.map (fun i => i.fileSize)).sum

/-- Cumulative clamped member size of a tar archive. -/
def tarSizeSum (members : List TarMember) : Nat :=
  (members.map (fun m => (max 0 m.size).toNat)).sum

/-! ## Project-root location (`_score_root_candidate` / `_detect_project_root`)

The filesystem is modelled flatly: the lists of directory paths and of
file paths that exist below (and including) the extraction directory, each
path a component list.  Listing order of `dirs` models `iterdir` order. -/

/-- A snapshot of the extracted tree. -/
structure Fs where
  dirs : List (List String)
  files : List (List String)
deriving Repr, DecidableEq

/-- `Path.is_dir()`. -/
def fsIsDir (fs : Fs) (p : List String) : Bool :=
  fs.dirs.contains p

/-- `Path.exists()` — true for directories and files alike. -/
def fsExists (fs : Fs) (p : List String) : Bool :=
  fs.dirs.contains p || fs.files.contains p

/-- `ROOT_HINT_FILES` of the source (a Python set; scoring sums over it, so
order is irrelevant). -/
def rootHintFiles : List String :=
  ["requirements.txt", "requirement.txt", "pyproject.toml", "setup.py",
   "setup.cfg", "Pipfile",
   "package.json", "pnpm-lock.yaml", "yarn.lock", "package-lock.json",
   "go.mod",
   "Cargo.toml",
   "pom.xml", "build.gradle", "build.gradle.kts", "settings.gradle",
   "settings.gradle.kts",
   "composer.json",
   "CMakeLists.txt", "Makefile", "makefile", "meson.build", "vcpkg.json",
   "conanfile.py", "conanfile.txt"]

/-- `_score_root_candidate`: `-1` for a non-directory, otherwise `2` per
hint file present plus `1` each for `src/` and `app/` subdirectories. -/
def scoreRoot (fs : Fs) (p : List String) : Int :=
  if ! fsIsDir fs p then -1
  else
    2 * ((rootHintFiles.filter (fun n => fsExists fs (p ++ [n]))).length : Int)
      + (if fsIsDir fs (p ++ ["src"]) then 1 else 0)
      + (if fsIsDir fs (p ++ ["app"]) then 1 else 0)

/-- Directory names skipped during the scan. -/
def skipDirNames : List String :=
  [".git", ".svn", "node_modules", ".venv", "venv", "__pycache__",
   "target", "dist", "build"]

/-- The subdirectories of `p` that the scan enqueues (directories only,
noise names skipped). -/
def childDirs (fs : Fs) (p : List String) : List (List String) :=
  fs.dirs.filter (fun d =>
    (d.length == p.length + 1) && p.isPrefixOf d &&
      ! skipDirNames.contains (d.getLastD ("")))

/-- The FIFO frontier of `_detect_project_root` visits directories level by
level; nodes whose depth exceeds the bound are popped but neither scored
nor expanded.  `fuel` is the number of levels still scored. -/
def bfsLevels (fs : Fs) : Nat → List (List String) → List (List String)
  | 0, _ => []
  | fuel + 1, frontier =>
    frontier ++ bfsLevels fs fuel (frontier.flatMap (childDirs fs))

/-- `MAX_ROOT_DETECT_DEPTH` (default of `SBOM_ROOT_DETECT_DEPTH`). -/
def maxRootDetectDepth : Nat := 4

/-- All directories the scan scores, in visit order (depths
`0 .. maxRootDetectDepth`, starting at the extraction directory). -/
def rootCandidates (fs : Fs) (extractDir : List String) : List (List String) :=
  bfsLevels fs (maxRootDetectDepth + 1) [extractDir]

/-- The best-so-far fold of the scan: replace only on a strictly greater
score. -/
def bestFold (fs : Fs) (acc : List String × Int) (c : List String) :
    List String × Int :=
  if scoreRoot fs c > acc.2 then (c, scoreRoot fs c) else acc

/-- The scan part of `_detect_project_root` (best initialised to the
extraction directory and its score, then the bounded breadth-first walk). -/
def bestCandidate (fs : Fs) (extractDir : List String) : List String :=
  ((rootCandidates fs extractDir).foldl (bestFold fs)
    (extractDir, scoreRoot fs extractDir)).1

/-- The fast-path test of `_detect_project_root`: `if hint:` (a `None` or
empty hint is falsy) and then `p.exists() and p.is_dir()`. -/
def hintHit (fs : Fs) (extractDir : List String) (hint : Option String) : Bool :=
  match hint with
  | none => false
  | some h =>
    (h != ("")) && fsExists fs (extractDir ++ [h]) && fsIsDir fs (extractDir ++ [h])

/-- `_detect_project_root` (the `lang` argument is accepted and ignored by
the source as well). -/
def detectProjectRoot (fs : Fs) (extractDir : List String)
    (hint : Option String) (lang : String) : List String :=
  if hintHit fs extractDir hint then extractDir ++ [hint.getD ("")]
  else bestCandidate fs extractDir

/-! ## Command registry (`_build_*_bom` / `build_bom_command`)

`which` models `_which` (lookup on the subprocess `PATH`); `py` models
`sys.executable`; file existence is answered by the same `Fs` snapshot. -/

/-- `str(path)` for logging/arguments. -/
def pathStr (p : List String) : String :=
  String.intercalate ("/") p

/-- Whitespace for `str.strip()`. -/
def isSpaceChar (c : Char) : Bool :=
  c == (' ') || c == ('\t') || c == ('\n') || c == ('\r')

/-- `code_language.lower().strip()`. -/
def lowerTrim (s : String) : String :=
  String.mk
    ((((s.data.map Char.toLower).dropWhile isSpaceChar).reverse.dropWhile
        isSpaceChar).reverse)

/-- Structured SBOM command (`BomCommand` dataclass). -/
structure BomCommand where
  args : List String
  cwd : List String
  output : List String
  tool : String
  preArgs : Option (List String)
deriving Repr, DecidableEq

/-- `PYTHON_REQUIREMENT_CANDIDATES`. -/
def pythonReqCandidates : List String :=
  ["requirements.txt", "requirement.txt", "requirements-dev.txt",
   "requirements-prod.txt", "requirements-test.txt"]

/-- `C_CPP_BUILD_METADATA`. -/
def cCppBuildMetadata : List String :=
  ["CMakeLists.txt", "Makefile", "makefile", "compile_commands.json",
   "conanfile.txt", "conanfile.py", "vcpkg.json", "meson.build"]

/-- `_pick_first_existing`. -/
def pickFirstExisting (fs : Fs) (dir : List String) (cands : List String) :
    Option String :=
  cands.find? (fun n => fsExists fs (dir ++ [n]))

/-- `_build_python_bom`: runs `sys.executable -m cyclonedx_py` (no `PATH`
probe), requires a requirements file or `pyproject.toml`. -/
def buildPythonBom (py : String) (fs : Fs) (projectRoot : List String)
    (dxUuid : String) : Option BomCommand :=
  let output := projectRoot ++ [dxUuid ++ (".json")]
  match pickFirstExisting fs projectRoot pythonReqCandidates with
  | some req =>
    some ⟨[py, "-m", "cyclonedx_py", "requirements", req, "-o", pathStr output],
      projectRoot, output, "cyclonedx-py", none⟩
  | none =>
    if fsExists fs (projectRoot ++ ["pyproject.toml"]) then
      some ⟨[py, "-m", "cyclonedx_py", "pyproject", "pyproject.toml", "-o",
          pathStr output],
        projectRoot, output, "cyclonedx-py", none⟩
    else none

/-- `_build_golang_bom`. -/
def buildGolangBom (which : String → Option String) (fs : Fs)
    (projectRoot : List String) (dxUuid : String) : Option BomCommand :=
  match which ("cyclonedx-gomod") with
  | none => none
  | some gomod =>
    if ! fsExists fs (projectRoot ++ ["go.mod"]) then none
    else
      let output := projectRoot ++ [dxUuid ++ (".json")]
      some ⟨[gomod, "mod", "-json", "-output", pathStr output],
        projectRoot, output, "cyclonedx-gomod", none⟩

/-- `_build_php_bom`: pre-command is `composer install` when a lock file
exists, otherwise `composer update`. -/
def buildPhpBom (which : String → Option String) (fs : Fs)
    (projectRoot : List String) (dxUuid : String) : Option BomCommand :=
  match which ("composer") with
  | none => none
  | some composer =>
    if ! fsExists fs (projectRoot ++ ["composer.json"]) then none
    else
      let output := projectRoot ++ [dxUuid ++ (".json")]
      let pre :=
        if fsExists fs (projectRoot ++ ["composer.lock"]) then
          [composer, "install", "--no-interaction", "--no-progress"]
        else
          [composer, "update", "--no-interaction", "--no-progress"]
      some ⟨[composer, "CycloneDX:make-sbom", "--output-format=JSON",
          "--output-file=" ++ pathStr output],
        projectRoot, output, "composer+cyclonedx", some pre⟩

/-- `_build_javascript_bom`. -/
def buildJavascriptBom (which : String → Option String) (fs : Fs)
    (projectRoot : List String) (dxUuid : String) : Option BomCommand :=
  match which ("cyclonedx-npm") with
  | none => none
  | some npmTool =>
    if ! fsExists fs (projectRoot ++ ["package.json"]) then none
    else
      let output := projectRoot ++ [dxUuid ++ (".json")]
      some ⟨[npmTool, "package.json", "--output-format=JSON", "--output-file",
          pathStr output],
        projectRoot, output, "cyclonedx-npm", none⟩

/-- `_build_rust_bom`: needs both `cargo` and `cargo-cyclonedx` resolvable
plus `Cargo.toml`. -/
def buildRustBom (which : String → Option String) (fs : Fs)
    (projectRoot : List String) (dxUuid : String) : Option BomCommand :=
  match which ("cargo"), which ("cargo-cyclonedx") with
  | some cargo, some _ =>
    if ! fsExists fs (projectRoot ++ ["Cargo.toml"]) then none
    else
      some ⟨[cargo, "cyclonedx", "-f=json", "--override-filename=" ++ dxUuid,
          "--workspace", "--all"],
        projectRoot, projectRoot ++ [dxUuid ++ (".json")], "cargo-cyclonedx",
        none⟩
  | _, _ => none

/-- `_build_java_bom`: only checks that `cdxgen` resolves; no manifest file
is required. -/
def buildJavaBom (which : String → Option String) (projectRoot : List String)
    (dxUuid : String) : Option BomCommand :=
  match which ("cdxgen") with
  | none => none
  | some cdxgen =>
    let output := projectRoot ++ [dxUuid ++ (".json")]
    some ⟨[cdxgen, "-t", "java", "-o", pathStr output, "--spec-version", "1.6"],
      projectRoot, output, "cdxgen", none⟩

/-- `_build_c_cpp_bom`: only checks that `cdxgen` resolves; the
build-metadata probe over `C_CPP_BUILD_METADATA` is log-only ("best
effort") and does not gate the command. -/
def buildCCppBom (which : String → Option String) (fs : Fs)
    (projectRoot : List String) (dxUuid : String) : Option BomCommand :=
  match which ("cdxgen") with
  | none => none
  | some cdxgen =>
    let output := projectRoot ++ [dxUuid ++ (".json")]
    some ⟨[cdxgen, "-t", "c", "-o", pathStr output, "--spec-version", "1.6"],
      projectRoot, output, "cdxgen", none⟩

/-- `build_bom_command`: lower-case/strip the ecosystem identifier, then
dispatch; also returns the diagnostic `which_map`. -/
def buildBomCommand (which : String → Option String) (py : String) (fs : Fs)
    (codeLanguage : String) (dxUuid : String) (projectRoot : List String) :
    Option BomCommand × List (String × Option String) :=
  let lang := lowerTrim codeLanguage
  let whichMap :=
    [("python", some py),
     ("cyclonedx-py", which ("cyclonedx-py")),
     ("cyclonedx-gomod", which ("cyclonedx-gomod")),
     ("composer", which ("composer")),
     ("cyclonedx-npm", which ("cyclonedx-npm")),
     ("cargo", which ("cargo")),
     ("cargo-cyclonedx", which ("cargo-cyclonedx")),
     ("cdxgen", which ("cdxgen"))]
  let cmd :=
    if lang == ("python") then buildPythonBom py fs projectRoot dxUuid
    else if lang == ("golang") || lang == ("go") then
      buildGolangBom which fs projectRoot dxUuid
    else if lang == ("php") then buildPhpBom which fs projectRoot dxUuid
    else if lang == ("javascript") || lang == ("node") || lang == ("nodejs") then
      buildJavascriptBom which fs projectRoot dxUuid
    else if lang == ("rust") then buildRustBom which fs projectRoot dxUuid
    else if lang == ("java") then buildJavaBom which projectRoot dxUuid
    else if lang == ("c/c++") || lang == ("c") || lang == ("cpp") then
      buildCCppBom which fs projectRoot dxUuid
    else none
  (cmd, whichMap)

/-! ## Process supervisor (`run_command_logged`)

The subprocess's behaviour is the input; the embedding returns the
`CmdResult` the source constructs together with the ordered trace of
supervisor actions the source performs on that behaviour. -/

/-- `CmdResult` dataclass. -/
structure CmdResult where
  returncode : Int
  stdout : String
  stderr : String
  durationMs : Nat
deriving Repr, DecidableEq

/-- How one supervised invocation behaves: spawn raises
`FileNotFoundError`, spawn raises some other exception, or the process runs
(and either exits with `returncode` — `none` models a `None` returncode —
or outlives the timeout).  The `cap` strings are what the stream readers
would capture. -/
inductive SpawnOutcome where
  | notFound : String → SpawnOutcome
  | spawnFail : String → SpawnOutcome
  | runs : Bool → Option Int → String → String → SpawnOutcome
deriving Repr, DecidableEq

/-- Supervisor-side actions, in the order the source performs them. -/
inductive SupAction where
  | spawn
  | startStdoutTask
  | startStderrTask
  | waitProc
  | killProc
  | awaitStdoutTask
  | awaitStderrTask
deriving Repr, DecidableEq

/-- `int(proc.returncode or 0)`. -/
def effRc (rc : Option Int) : Int :=
  rc.getD 0

/-- `run_command_logged` on a given subprocess behaviour: the result and
the supervisor-action trace.  On timeout the source kills the process,
awaits it, and returns from the `except TimeoutError` handler without ever
awaiting the two capture tasks. -/
def runCommandLogged (outcome : SpawnOutcome) (durMs : Nat) :
    CmdResult × List SupAction :=
  match outcome with
  | .notFound m =>
    (⟨127, "", ("NOT_FOUND: ") ++ m, durMs⟩, [.spawn])
  | .spawnFail m =>
    (⟨1, "", m, durMs⟩, [.spawn])
  | .runs true _ _ _ =>
    (⟨124, "", "TIMEOUT", durMs⟩,
     [.spawn, .startStdoutTask, .startStderrTask, .waitProc, .killProc,
      .waitProc])
  | .runs false rc so se =>
    (⟨effRc rc, so, se, durMs⟩,
     [.spawn, .startStdoutTask, .startStderrTask, .waitProc,
      .awaitStdoutTask, .awaitStderrTask])

/-! ## Tracking-service client (`dx_ctl`)

A call environment is a function from attempt index to the HTTP response
that attempt would receive.  Each client call returns its outcome together
with the ordered request/sleep trace. -/

/-- One HTTP response: status code, body text, and (for the create call)
the `uuid` field of the decoded JSON body. -/
structure HttpResp where
  status : Nat
  text : String
  uuidField : Option String
deriving Repr, DecidableEq

/-- Network-visible actions of a client call. -/
inductive DxAct where
  | request
  | sleep1s
deriving Repr, DecidableEq

/-- `_err_of`: status code and body text truncated to 2000 characters. -/
def errOf (r : HttpResp) : String :=
  toString r.status ++ (": ") ++ String.mk (r.text.data.take 2000)

/-- The retry loop of `create_project` (`for _ in range(3)`), peeled on the
remaining attempt count.  A 201 with a falsy `uuid` raises immediately
(no retry); any other status records the truncated error, sleeps one
second, and retries. -/
def createLoop (resp : Nat → HttpResp) :
    Nat → Nat → Option String → Except String String × List DxAct
  | 0, _, lastErr =>
    (.error (("DX_CREATE_PROJECT_FAILED: ") ++ lastErr.getD ("unknown")), [])
  | fuel + 1, i, _ =>
    let r := resp i
    if r.status == 201 then
      match r.uuidField with
      | some u =>
        if u == ("") then (.error ("DX 返回 201 但 uuid 为空"), [.request])
        else (.ok u, [.request])
      | none => (.error ("DX 返回 201 但 uuid 为空"), [.request])
    else
      let rest := createLoop resp fuel (i + 1) (some (errOf r))
      (rest.1, .request :: .sleep1s :: rest.2)

/-- `create_project`. -/
def createProject (resp : Nat → HttpResp) : Except String String × List DxAct :=
  createLoop resp 3 0 none

/-- The retry loop of `delete_project`: 200/202/204/404 all count as
success (delete is idempotent on not-found). -/
def deleteLoop (resp : Nat → HttpResp) :
    Nat → Nat → Option String → Except String Bool × List DxAct
  | 0, _, lastErr =>
    (.error (("DX_DELETE_PROJECT_FAILED: ") ++ lastErr.getD ("unknown")), [])
  | fuel + 1, i, _ =>
    let r := resp i
    if r.status == 200 || r.status == 202 || r.status == 204 || r.status == 404
    then (.ok true, [.request])
    else
      let rest := deleteLoop resp fuel (i + 1) (some (errOf r))
      (rest.1, .request :: .sleep1s :: rest.2)

/-- `delete_project`. -/
def deleteProject (resp : Nat → HttpResp) : Except String Bool × List DxAct :=
  deleteLoop resp 3 0 none

/-- `update_project_bom`: a missing artifact file (`FileNotFoundError` from
`open`) returns `False` with no request; otherwise exactly one POST, and
the boolean is `status ∈ {200, 201}`.  No retry, no sleep, no error text. -/
def updateProjectBom (artifactOnDisk : Bool) (resp : Nat → HttpResp) :
    Bool × List DxAct :=
  if ! artifactOnDisk then (false, [])
  else
    let r := resp 0
    (r.status == 200 || r.status == 201, [.request])

/-! ## Pipeline orchestration (`extract_archive` → `make_dx_bom` → upload,
`main` of `sbom_src.py`)

The stage outcomes are the input (`RunEnv`); the embedding produces the
pipeline's return value — `Except` models an exception escaping `main` —
together with the ordered trace of status writes and stage actions.
Status codes follow the `sbom_project.status` column: 0 pending (written
by project creation), 1 extracting, 2 generating, 3 complete, -1 failed. -/

/-- How the upload stage behaves: HTTP success, HTTP non-success (the call
returns `False`), or the call raises (e.g. a connect error — only
`FileNotFoundError` is caught inside `update_project_bom`). -/
inductive UploadOut where
  | succ
  | failed
  | raises : String → UploadOut
deriving Repr, DecidableEq

/-- Outcomes of the stages of one run. -/
structure RunEnv where
  extractOk : Bool
  extractErr : String
  rootExists : Bool
  cmdHasPre : Option Bool
  preRc : Int
  mainRc : Int
  outputExists : Bool
  dxUuid : String
  upload : UploadOut
deriving Repr, DecidableEq

/-- Observable pipeline events: persisted status writes and stage
executions. -/
inductive PipeEv where
  | status : Int → Option String → PipeEv
  | runPre
  | runMain
  | uploadCall
deriving Repr, DecidableEq

/-- `extract_archive`: writes status 1, then on failure writes -1 with the
extraction error and stops. -/
def extractArchiveEv (env : RunEnv) : Bool × List PipeEv :=
  if env.extractOk then (true, [.status 1 none])
  else (false, [.status 1 none, .status (-1) (some env.extractErr)])

/-- `make_dx_bom`: writes status 2; each failure branch writes -1 with its
message and returns no artifact name; on success returns the output file
name. -/
def makeDxBomEv (env : RunEnv) : Option String × List PipeEv :=
  if ! env.rootExists then
    (none, [.status 2 none, .status (-1) (some ("项目根目录不存在"))])
  else
    match env.cmdHasPre with
    | none =>
      (none, [.status 2 none,
        .status (-1) (some ("无法构建SBOM命令：缺少清单文件/工具未安装或不在PATH"))])
    | some hasPre =>
      if hasPre ∧ env.preRc ≠ 0 then
        (none, [.status 2 none, .runPre, .status (-1) (some ("前置命令失败"))])
      else
        let evs :=
          [.status 2 none] ++ (if hasPre then [PipeEv.runPre] else []) ++
            [PipeEv.runMain]
        if env.mainRc ≠ 0 then
          (none, evs ++ [.status (-1) (some ("生成bom失败"))])
        else if ! env.outputExists then
          (none, evs ++
            [.status (-1) (some ("生成bom失败：命令执行成功但未发现输出文件"))])
        else (some (env.dxUuid ++ (".json")), evs)

/-- `main`: extract, generate, upload, with a status write after each
transition, under the assumption that every status write succeeds.  An
exception raised by the upload call escapes `main` (`Except.error`);
otherwise `main` returns a boolean.  `mainPipelineX` below refines this by
also letting each status-write attempt raise, matching the source, where
`_update_status` runs uncaught database operations. -/
def mainPipeline (env : RunEnv) : Except String Bool × List PipeEv :=
  let ex := extractArchiveEv env
  if ! ex.1 then (.ok false, ex.2)
  else
    let gen := makeDxBomEv env
    match gen.1 with
    | none => (.ok false, ex.2 ++ gen.2)
    | some _ =>
      match env.upload with
      | .raises m => (.error m, ex.2 ++ gen.2 ++ [.uploadCall])
      | .succ => (.ok true, ex.2 ++ gen.2 ++ [.uploadCall, .status 3 none])
      | .failed =>
        (.ok false,
         ex.2 ++ gen.2 ++ [.uploadCall, .status (-1) (some ("DX error"))])

/-- The persisted status values of a trace, in write order. -/
def statusWrites (evs : List PipeEv) : List Int :=
  evs.filterMap (fun e =>
    match e with
    | .status s _ => some s
    | _ => none)

/-- The claim-C8 shape of a status sequence: each consecutive write either
advances by one or moves to Failed, and -1 and 3 are terminal. -/
def okStatusSeq : List Int → Bool
  | [] => true
  | [_] => true
  | a :: b :: rest =>
    (a != -1) && (a != 3) && ((b == a + 1) || (b == -1)) &&
      okStatusSeq (b :: rest)

/-- No event of any kind follows a write of status -1. -/
def noEventAfterFailed : List PipeEv → Bool
  | [] => true
  | PipeEv.status s _ :: rest =>
    if s == -1 then rest.isEmpty else noEventAfterFailed rest
  | _ :: rest => noEventAfterFailed rest

/-- One pipeline run in the refined error model: the stage outcomes plus
the behaviour of each `_update_status` call — `stRaise k` is the exception
(if any) raised by the k-th status-write attempt of the run.  The source
wraps no status write in a try/except, so such an exception escapes
`main`. -/
structure RunEnvX where
  base : RunEnv
  stRaise : Nat → Option String

/-- `main` with fallible status writes: identical staging to
`mainPipeline`, but before each status value is persisted the
corresponding `_update_status` call may raise, in which case nothing is
written by that call and the exception escapes `main` immediately.  Write
attempt 0 is the Extracting write, attempt 1 the Failed-extraction or
Generating write, attempt 2 the next write of the run. -/
def mainPipelineX (env : RunEnvX) : Except String Bool × List PipeEv :=
  match env.stRaise 0 with
  | some m => (.error m, [])
  | none =>
    let e0 : List PipeEv := [.status 1 none]
    if ! env.base.extractOk then
      match env.stRaise 1 with
      | some m => (.error m, e0)
      | none =>
        (.ok false, e0 ++ [.status (-1) (some env.base.extractErr)])
    else
      match env.stRaise 1 with
      | some m => (.error m, e0)
      | none =>
        let e1 := e0 ++ [.status 2 none]
        if ! env.base.rootExists then
          match env.stRaise 2 with
          | some m => (.error m, e1)
          | none =>
            (.ok false, e1 ++ [.status (-1) (some ("项目根目录不存在"))])
        else
          match env.base.cmdHasPre with
          | none =>
            match env.stRaise 2 with
            | some m => (.error m, e1)
            | none =>
              (.ok false, e1 ++
                [.status (-1)
                  (some ("无法构建SBOM命令：缺少清单文件/工具未安装或不在PATH"))])
          | some hasPre =>
            if hasPre ∧ env.base.preRc ≠ 0 then
              match env.stRaise 2 with
              | some m => (.error m, e1 ++ [.runPre])
              | none =>
                (.ok false, e1 ++ [.runPre, .status (-1) (some ("前置命令失败"))])
            else
              let e2 := e1 ++ (if hasPre then [PipeEv.runPre] else []) ++
                [PipeEv.runMain]
              if env.base.mainRc ≠ 0 then
                match env.stRaise 2 with
                | some m => (.error m, e2)
                | none =>
                  (.ok false, e2 ++ [.status (-1) (some ("生成bom失败"))])
              else if ! env.base.outputExists then
                match env.stRaise 2 with
                | some m => (.error m, e2)
                | none =>
                  (.ok false, e2 ++
                    [.status (-1)
                      (some ("生成bom失败：命令执行成功但未发现输出文件"))])
              else
                match env.base.upload with
                | .raises m => (.error m, e2 ++ [.uploadCall])
                | .succ =>
                  match env.stRaise 2 with
                  | some m => (.error m, e2 ++ [.uploadCall])
                  | none =>
                    (.ok true, e2 ++ [.uploadCall, .status 3 none])
                | .failed =>
                  match env.stRaise 2 with
                  | some m => (.error m, e2 ++ [.uploadCall])
                  | none =>
                    (.ok false, e2 ++
                      [.uploadCall, .status (-1) (some ("DX error"))])

/-- The specification's `UnsafeMember` class. -/
def isUnsafeMemberErr : ExtractErr → Bool
  | .linkMember _ => true
  | _ => false

/-- A `ZipInfo` with its (never-inspected) symlink bit cleared. -/
def clearZipLink (i : ZipInfo) : ZipInfo :=
  ⟨i.filename, i.fileSize, false⟩

/-! ## Lemmas about the extraction loops -/

theorem zipLoop_err_of_bad (maxS : Nat) (dir : List String) :
    ∀ (infos : List ZipInfo) (total : Nat),
      (∃ i ∈ infos, badZipMember dir i = true) →
      ∃ e, zipLoop maxS dir total infos = .error e := by
  intro infos
  induction infos with
  | nil => intro total h; simp at h
  | cons info rest ih =>
    intro total h
    simp only [zipLoop]
    by_cases hq : total + info.fileSize > maxS
    · simp [hq]
    · simp only [hq, if_false]
      by_cases hn : nameStartsBad info.filename
      · simp [hn]
      · simp only [hn, Bool.false_eq_true, if_false]
        by_cases hw :
            isWithinDirectory dir (dir ++ parseRel info.filename) = true
        · simp only [hw, Bool.not_true, Bool.false_eq_true, if_false]
          rcases h with ⟨i, hi, hbad⟩
          rcases List.mem_cons.mp hi with rfl | hi
          · exfalso
            simp [badZipMember, hn, hw] at hbad
          · exact ih _ ⟨i, hi, hbad⟩
        · simp [Bool.not_eq_true] at hw
          simp [hw]

theorem zipLoop_traversal_kind (maxS : Nat) (dir : List String) :
    ∀ (infos : List ZipInfo) (total : Nat),
      (∃ i ∈ infos, badZipMember dir i = true) →
      total + zipSizeSum infos ≤ maxS →
      ∃ e, zipLoop maxS dir total infos = .error e ∧
        isPathTraversalErr e = true := by
  intro infos
  induction infos with
  | nil => intro total h _; simp at h
  | cons info rest ih =>
    intro total h hsz
    have hsum : total + info.fileSize + zipSizeSum rest ≤ maxS := by
      simp only [zipSizeSum, List.map_cons, List.sum_cons] at hsz ⊢
      omega
    have hq : ¬ (total + info.fileSize > maxS) := by omega
    simp only [zipLoop, hq, if_false]
    by_cases hn : nameStartsBad info.filename
    · exact ⟨.absPath info.filename, by simp [hn], rfl⟩
    · simp only [hn, Bool.false_eq_true, if_false]
      by_cases hw : isWithinDirectory dir (dir ++ parseRel info.filename) = true
      · simp only [hw, Bool.not_true, Bool.false_eq_true, if_false]
        rcases h with ⟨i, hi, hbad⟩
        rcases List.mem_cons.mp hi with rfl | hi
        · exfalso; simp [badZipMember, hn, hw] at hbad
        · exact ih _ ⟨i, hi, hbad⟩ hsum
      · simp only [Bool.not_eq_true] at hw
        exact ⟨.traversal info.filename, by simp [hw], rfl⟩

theorem tarLoop_err_of_bad (maxS : Nat) (dir : List String) :
    ∀ (members : List TarMember) (total : Nat),
      (∃ m ∈ members, badTarMember dir m = true) →
      ∃ e, tarLoop maxS dir total members = .error e := by
  intro members
  induction members with
  | nil => intro total h; simp at h
  | cons m rest ih =>
    intro total h
    simp only [tarLoop]
    by_cases hn : nameStartsBad m.name
    · simp [hn]
    · simp only [hn, Bool.false_eq_true, if_false]
      by_cases hl : (m.isSym || m.isLnk) = true
      · simp [hl]
      · simp only [hl, Bool.false_eq_true, if_false]
        by_cases hq : total + (max 0 m.size).toNat > maxS
        · simp [hq]
        · simp only [hq, if_false]
          by_cases hw : isWithinDirectory dir (dir ++ parseRel m.name) = true
          · simp only [hw, Bool.not_true, Bool.false_eq_true, if_false]
            rcases h with ⟨x, hx, hbad⟩
            rcases List.mem_cons.mp hx with rfl | hx
            · exfalso; simp [badTarMember, hn, hw] at hbad
            · exact ih _ ⟨x, hx, hbad⟩
          · simp only [Bool.not_eq_true] at hw
            simp [hw]

theorem tarLoop_err_of_link (maxS : Nat) (dir : List String) :
    ∀ (members : List TarMember) (total : Nat),
      (∃ m ∈ members, (m.isSym || m.isLnk) = true) →
      ∃ e, tarLoop maxS dir total members = .error e := by
  intro members
  induction members with
  | nil => intro total h; simp at h
  | cons m rest ih =>
    intro total h
    simp only [tarLoop]
    by_cases hn : nameStartsBad m.name
    · simp [hn]
    · simp only [hn, Bool.false_eq_true, if_false]
      by_cases hl : (m.isSym || m.isLnk) = true
      · simp [hl]
      · simp only [hl, Bool.false_eq_true, if_false]
        by_cases hq : total + (max 0 m.size).toNat > maxS
        · simp [hq]
        · simp only [hq, if_false]
          by_cases hw : isWithinDirectory dir (dir ++ parseRel m.name) = true
          · simp only [hw, Bool.not_true, Bool.false_eq_true, if_false]
            rcases h with ⟨x, hx, hlnk⟩
            rcases List.mem_cons.mp hx with rfl | hx
            · exact absurd hlnk hl
            · exact ih _ ⟨x, hx, hlnk⟩
          · simp only [Bool.not_eq_true] at hw
            simp [hw]

theorem tarLoop_traversal_kind (maxS : Nat) (dir : List String) :
    ∀ (members : List TarMember) (total : Nat),
      (∃ m ∈ members, badTarMember dir m = true) →
      total + tarSizeSum members ≤ maxS →
      (∀ m ∈ members, m.isSym = false ∧ m.isLnk = false) →
      ∃ e, tarLoop maxS dir total members = .error e ∧
        isPathTraversalErr e = true := by
  intro members
  induction members with
  | nil => intro total h _ _; simp at h
  | cons m rest ih =>
    intro total h hsz hnl
    have hm := hnl m (List.mem_cons_self m rest)
    have hsum : total + (max 0 m.size).toNat + tarSizeSum rest ≤ maxS := by
      simp only [tarSizeSum, List.map_cons, List.sum_cons] at hsz ⊢
      omega
    simp only [tarLoop]
    by_cases hn : nameStartsBad m.name
    · exact ⟨.absPath m.name, by simp [hn], rfl⟩
    · simp only [hn, Bool.false_eq_true, if_false]
      have hl : (m.isSym || m.isLnk) = false := by simp [hm.1, hm.2]
      simp only [hl, Bool.false_eq_true, if_false]
      have hq : ¬ (total + (max 0 m.size).toNat > maxS) := by omega
      simp only [hq, if_false]
      by_cases hw : isWithinDirectory dir (dir ++ parseRel m.name) = true
      · simp only [hw, Bool.not_true, Bool.false_eq_true, if_false]
        rcases h with ⟨x, hx, hbad⟩
        rcases List.mem_cons.mp hx with rfl | hx
        · exfalso; simp [badTarMember, hn, hw] at hbad
        · exact ih _ ⟨x, hx, hbad⟩ hsum
            (fun y hy => hnl y (List.mem_cons_of_mem m hy))
      · simp only [Bool.not_eq_true] at hw
        exact ⟨.traversal m.name, by simp [hw], rfl⟩

theorem tarLoop_link_kind (maxS : Nat) (dir : List String) :
    ∀ (members : List TarMember) (total : Nat),
      (∃ m ∈ members, (m.isSym || m.isLnk) = true) →
      total + tarSizeSum members ≤ maxS →
      (∀ m ∈ members, badTarMember dir m = false) →
      ∃ e, tarLoop maxS dir total members = .error e ∧
        isUnsafeMemberErr e = true := by
  intro members
  induction members with
  | nil => intro total h _ _; simp at h
  | cons m rest ih =>
    intro total h hsz hclean
    have hm := hclean m (List.mem_cons_self m rest)
    have hn : nameStartsBad m.name = false := by
      simp [badTarMember] at hm; exact hm.1
    have hw : isWithinDirectory dir (dir ++ parseRel m.name) = true := by
      simp [badTarMember] at hm; exact hm.2
    have hsum : total + (max 0 m.size).toNat + tarSizeSum rest ≤ maxS := by
      simp only [tarSizeSum, List.map_cons, List.sum_cons] at hsz ⊢
      omega
    simp only [tarLoop, hn, Bool.false_eq_true, if_false]
    by_cases hl : (m.isSym || m.isLnk) = true
    · exact ⟨.linkMember m.name, by simp [hl], rfl⟩
    · simp only [hl, Bool.false_eq_true, if_false]
      have hq : ¬ (total + (max 0 m.size).toNat > maxS) := by omega
      simp only [hq, if_false, hw, Bool.not_true, Bool.false_eq_true]
      rcases h with ⟨x, hx, hlnk⟩
      rcases List.mem_cons.mp hx with rfl | hx
      · exact absurd hlnk hl
      · exact ih _ ⟨x, hx, hlnk⟩ hsum
          (fun y hy => hclean y (List.mem_cons_of_mem m hy))

theorem zipLoop_quota (maxS : Nat) (dir : List String) :
    ∀ (infos : List ZipInfo) (total : Nat),
      (∀ i ∈ infos, badZipMember dir i = false) →
      total ≤ maxS → total + zipSizeSum infos > maxS →
      zipLoop maxS dir total infos = .error (.quotaSize maxS) := by
  intro infos
  induction infos with
  | nil =>
    intro total _ h1 h2
    simp [zipSizeSum] at h2
    omega
  | cons info rest ih =>
    intro total hclean h1 h2
    have hm := hclean info (List.mem_cons_self info rest)
    have hn : nameStartsBad info.filename = false := by
      simp [badZipMember] at hm; exact hm.1
    have hw : isWithinDirectory dir (dir ++ parseRel info.filename) = true := by
      simp [badZipMember] at hm; exact hm.2
    simp only [zipLoop]
    by_cases hq : total + info.fileSize > maxS
    · simp [hq]
    · simp only [hq, if_false, hn, Bool.false_eq_true, hw, Bool.not_true]
      have hsum : total + info.fileSize + zipSizeSum rest > maxS := by
        simp only [zipSizeSum, List.map_cons, List.sum_cons] at h2 ⊢
        omega
      exact ih _ (fun y hy => hclean y (List.mem_cons_of_mem info hy))
        (by omega) hsum

theorem tarLoop_quota (maxS : Nat) (dir : List String) :
    ∀ (members : List TarMember) (total : Nat),
      (∀ m ∈ members, badTarMember dir m = false) →
      (∀ m ∈ members, m.isSym = false ∧ m.isLnk = false) →
      total ≤ maxS → total + tarSizeSum members > maxS →
      tarLoop maxS dir total members = .error (.quotaSize maxS) := by
  intro members
  induction members with
  | nil =>
    intro total _ _ h1 h2
    simp [tarSizeSum] at h2
    omega
  | cons m rest ih =>
    intro total hclean hnl h1 h2
    have hm := hclean m (List.mem_cons_self m rest)
    have hml := hnl m (List.mem_cons_self m rest)
    have hn : nameStartsBad m.name = false := by
      simp [badTarMember] at hm; exact hm.1
    have hw : isWithinDirectory dir (dir ++ parseRel m.name) = true := by
      simp [badTarMember] at hm; exact hm.2
    have hl : (m.isSym || m.isLnk) = false := by simp [hml.1, hml.2]
    simp only [tarLoop, hn, Bool.false_eq_true, if_false, hl]
    by_cases hq : total + (max 0 m.size).toNat > maxS
    · simp [hq]
    · simp only [hq, if_false, hw, Bool.not_true, Bool.false_eq_true]
      have hsum : total + (max 0 m.size).toNat + tarSizeSum rest > maxS := by
        simp only [tarSizeSum, List.map_cons, List.sum_cons] at h2 ⊢
        omega
      exact ih _ (fun y hy => hclean y (List.mem_cons_of_mem m hy))
        (fun y hy => hnl y (List.mem_cons_of_mem m hy)) (by omega) hsum

theorem zipLoop_link_insensitive (maxS : Nat) (dir : List String) :
    ∀ (infos : List ZipInfo) (total : Nat),
      zipLoop maxS dir total (infos.map clearZipLink) =
        zipLoop maxS dir total infos := by
  intro infos
  induction infos with
  | nil => intro total; rfl
  | cons info rest ih =>
    intro total
    simp only [List.map_cons, zipLoop, clearZipLink, ih]

/-! ## Claim C1 -/

/-- C1, as stated, is false: in `_safe_extract_zip` the member's declared
size is added to the running total and checked against the size ceiling
BEFORE the member's name is examined, so an archive whose traversal member
itself crosses the size ceiling fails with the quota error, not with a
path-traversal error. -/
theorem claim_C1_counterexample :
    safeExtractZip 10 100 [("d")] [⟨"../evil", 101, false⟩] =
        .error (.quotaSize 100) ∧
    badZipMember [("d")] ⟨"../evil", 101, false⟩ = true ∧
    isPathTraversalErr (.quotaSize 100) = false := by
  decide

/-- C1 (amended): for every archive (zip or tar) containing a member whose
name is absolute / drive-letter or resolves outside the destination,
extraction fails and no file is written at all; the error is a
path-traversal error provided neither quota ceiling is crossed and (for
tar) no member is a link — otherwise it may be `QuotaExceeded` or
`UnsafeMember` instead. -/
theorem claim_C1_amended :
    ∀ (maxF maxS : Nat) (dir : List String) (infos : List ZipInfo)
      (members : List TarMember),
      ((∃ i ∈ infos, badZipMember dir i = true) →
        (∃ e, safeExtractZip maxF maxS dir infos = .error e) ∧
        zipWritten maxF maxS dir infos = [] ∧
        (infos.length ≤ maxF → zipSizeSum infos ≤ maxS →
          ∃ e, safeExtractZip maxF maxS dir infos = .error e ∧
            isPathTraversalErr e = true)) ∧
      ((∃ m ∈ members, badTarMember dir m = true) →
        (∃ e, safeExtractTar maxF maxS dir members = .error e) ∧
        tarWritten maxF maxS dir members = [] ∧
        (members.length ≤ maxF → tarSizeSum members ≤ maxS →
          (∀ m ∈ members, m.isSym = false ∧ m.isLnk = false) →
          ∃ e, safeExtractTar maxF maxS dir members = .error e ∧
            isPathTraversalErr e = true)) := by
  intro maxF maxS dir infos members
  constructor
  · intro h
    have herr : ∃ e, safeExtractZip maxF maxS dir infos = .error e := by
      by_cases hc : infos.length > maxF
      · exact ⟨.quotaFiles infos.length maxF, by simp [safeExtractZip, hc]⟩
      · simpa [safeExtractZip, hc] using zipLoop_err_of_bad maxS dir infos 0 h
    refine ⟨herr, ?_, ?_⟩
    · rcases herr with ⟨e, he⟩
      simp [zipWritten, he]
    · intro hlen hsz
      have hc : ¬ infos.length > maxF := by omega
      simpa [safeExtractZip, hc] using
        zipLoop_traversal_kind maxS dir infos 0 h (by omega)
  · intro h
    have herr : ∃ e, safeExtractTar maxF maxS dir members = .error e := by
      by_cases hc : members.length > maxF
      · exact ⟨.quotaFiles members.length maxF, by simp [safeExtractTar, hc]⟩
      · simpa [safeExtractTar, hc] using tarLoop_err_of_bad maxS dir members 0 h
    refine ⟨herr, ?_, ?_⟩
    · rcases herr with ⟨e, he⟩
      simp [tarWritten, he]
    · intro hlen hsz hnl
      have hc : ¬ members.length > maxF := by omega
      simpa [safeExtractTar, hc] using
        tarLoop_traversal_kind maxS dir members 0 h (by omega) hnl

/-- Witness that the hypotheses of `claim_C1_amended` are satisfiable. -/
theorem claim_C1_witness :
    (∃ e, safeExtractZip 10 100 [("d")] [⟨"../evil", 1, false⟩] = .error e ∧
      isPathTraversalErr e = true) ∧
    (∃ e, safeExtractTar 10 100 [("d")] [⟨"../evil", 1, false, false⟩] =
        .error e ∧ isPathTraversalErr e = true) := by
  refine ⟨?_, ?_⟩
  · exact ((claim_C1_amended 10 100 [("d")] [⟨"../evil", 1, false⟩] []).1
      (by decide)).2.2 (by decide) (by decide)
  · exact ((claim_C1_amended 10 100 [("d")] [] [⟨"../evil", 1, false, false⟩]).2
      (by decide)).2.2 (by decide) (by decide) (by decide)

/-! ## Claim C2 -/

/-- C2, as stated, is false for the zip format: `_safe_extract_zip`
performs no link check at all, so a zip archive whose member carries the
symlink mode bit is accepted, not rejected with `UnsafeMember`. -/
theorem claim_C2_counterexample :
    safeExtractZip 10 100 [("d")] [⟨"lib/libz.so", 4, true⟩] = .ok () ∧
    (⟨"lib/libz.so", 4, true⟩ : ZipInfo).isSymlink = true := by
  decide

/-- C2 (amended): `_safe_extract_tar` rejects archives containing
symbolic- or hard-link members (with the `UnsafeMember` error when no
other check fires first), but `_safe_extract_zip` performs no link check —
its result is completely insensitive to the symlink bit of its members. -/
theorem claim_C2_amended :
    ∀ (maxF maxS : Nat) (dir : List String) (members : List TarMember)
      (infos : List ZipInfo),
      ((∃ m ∈ members, (m.isSym || m.isLnk) = true) →
        (∃ e, safeExtractTar maxF maxS dir members = .error e) ∧
        (members.length ≤ maxF → tarSizeSum members ≤ maxS →
          (∀ m ∈ members, badTarMember dir m = false) →
          ∃ e, safeExtractTar maxF maxS dir members = .error e ∧
            isUnsafeMemberErr e = true)) ∧
      safeExtractZip maxF maxS dir (infos.map clearZipLink) =
        safeExtractZip maxF maxS dir infos := by
  intro maxF maxS dir members infos
  constructor
  · intro h
    constructor
    · by_cases hc : members.length > maxF
      · exact ⟨.quotaFiles members.length maxF, by simp [safeExtractTar, hc]⟩
      · simpa [safeExtractTar, hc] using tarLoop_err_of_link maxS dir members 0 h
    · intro hlen hsz hclean
      have hc : ¬ members.length > maxF := by omega
      simpa [safeExtractTar, hc] using
        tarLoop_link_kind maxS dir members 0 h (by omega) hclean
  · simp [safeExtractZip, List.length_map, zipLoop_link_insensitive]

/-- Witness that the hypotheses of `claim_C2_amended` are satisfiable. -/
theorem claim_C2_witness :
    ∃ e, safeExtractTar 10 100 [("d")] [⟨"etc/conf", 1, true, false⟩] =
        .error e ∧ isUnsafeMemberErr e = true := by
  exact ((claim_C2_amended 10 100 [("d")] [⟨"etc/conf", 1, true, false⟩] []).1
    (by decide)).2 (by decide) (by decide) (by decide)

/-! ## Claim C3 -/

/-- C3, as stated, is false for the size ceiling: an archive whose
cumulative size exceeds the ceiling can fail with a different error when a
member is rejected before the running total crosses the ceiling (here the
absolute-path member is rejected first). -/
theorem claim_C3_counterexample :
    safeExtractZip 10 100 [("d")]
        [⟨"/abs", 0, false⟩, ⟨"ok", 101, false⟩] =
      .error (.absPath ("/abs")) ∧
    zipSizeSum [⟨"/abs", 0, false⟩, ⟨"ok", 101, false⟩] > 100 ∧
    isQuotaErr (.absPath ("/abs")) = false := by
  decide

/-- C3 (amended): a member count above the ceiling always fails with the
count quota error (it is checked before any member's bytes or name);
cumulative size above the ceiling fails with the size quota error provided
no member is rejected for its name or link type first; and on every error
return nothing at all has been written to the destination (`extractall`
runs only after all checks pass). -/
theorem claim_C3_amended :
    ∀ (maxF maxS : Nat) (dir : List String) (infos : List ZipInfo)
      (members : List TarMember),
      (infos.length > maxF →
        safeExtractZip maxF maxS dir infos =
          .error (.quotaFiles infos.length maxF)) ∧
      (infos.length ≤ maxF → zipSizeSum infos > maxS →
        (∀ i ∈ infos, badZipMember dir i = false) →
        safeExtractZip maxF maxS dir infos = .error (.quotaSize maxS)) ∧
      (∀ e, safeExtractZip maxF maxS dir infos = .error e →
        zipWritten maxF maxS dir infos = []) ∧
      (members.length > maxF →
        safeExtractTar maxF maxS dir members =
          .error (.quotaFiles members.length maxF)) ∧
      (members.length ≤ maxF → tarSizeSum members > maxS →
        (∀ m ∈ members, badTarMember dir m = false) →
        (∀ m ∈ members, m.isSym = false ∧ m.isLnk = false) →
        safeExtractTar maxF maxS dir members = .error (.quotaSize maxS)) ∧
      (∀ e, safeExtractTar maxF maxS dir members = .error e →
        tarWritten maxF maxS dir members = []) := by
  intro maxF maxS dir infos members
  refine ⟨?_, ?_, ?_, ?_, ?_, ?_⟩
  · intro hc
    simp [safeExtractZip, hc]
  · intro hlen hsz hclean
    have hc : ¬ infos.length > maxF := by omega
    simpa [safeExtractZip, hc] using
      zipLoop_quota maxS dir infos 0 hclean (by omega) (by omega)
  · intro e he
    simp [zipWritten, he]
  · intro hc
    simp [safeExtractTar, hc]
  · intro hlen hsz hclean hnl
    have hc : ¬ members.length > maxF := by omega
    simpa [safeExtractTar, hc] using
      tarLoop_quota maxS dir members 0 hclean hnl (by omega) (by omega)
  · intro e he
    simp [tarWritten, he]

/-- Witness that the hypotheses of `claim_C3_amended` are satisfiable. -/
theorem claim_C3_witness :
    safeExtractZip 0 100 [("d")] [⟨"a.txt", 1, false⟩] =
        .error (.quotaFiles 1 0) ∧
    safeExtractZip 10 100 [("d")] [⟨"a.txt", 101, false⟩] =
        .error (.quotaSize 100) ∧
    safeExtractTar 10 100 [("d")] [⟨"a.txt", 101, false, false⟩] =
        .error (.quotaSize 100) := by
  refine ⟨?_, ?_, ?_⟩
  · exact (claim_C3_amended 0 100 [("d")] [⟨"a.txt", 1, false⟩] []).1
      (by decide)
  · exact (claim_C3_amended 10 100 [("d")] [⟨"a.txt", 101, false⟩] []).2.1
      (by decide) (by decide) (by decide)
  · exact (claim_C3_amended 10 100 [("d")] []
      [⟨"a.txt", 101, false, false⟩]).2.2.2.2.1
      (by decide) (by decide) (by decide) (by decide)

/-! ## Lemmas about the root-candidate fold and scan -/

theorem bestFold_fst_mem (fs : Fs) :
    ∀ (l : List (List String)) (p : List String × Int),
      (l.foldl (bestFold fs) p).1 = p.1 ∨ (l.foldl (bestFold fs) p).1 ∈ l := by
  intro l
  induction l with
  | nil => intro p; left; rfl
  | cons c t ih =>
    intro p
    simp only [List.foldl_cons]
    rcases ih (bestFold fs p c) with h | h
    · rw [h]
      by_cases hc : scoreRoot fs c > p.2
      · right; simp [bestFold, hc]
      · left; simp [bestFold, hc]
    · right; exact List.mem_cons_of_mem c h

theorem bestFold_coherent (fs : Fs) :
    ∀ (l : List (List String)) (p : List String × Int),
      p.2 = scoreRoot fs p.1 →
      (l.foldl (bestFold fs) p).2 =
        scoreRoot fs (l.foldl (bestFold fs) p).1 := by
  intro l
  induction l with
  | nil => intro p hp; exact hp
  | cons c t ih =>
    intro p hp
    simp only [List.foldl_cons]
    apply ih
    simp only [bestFold]
    split_ifs with hc
    · rfl
    · exact hp

theorem bestFold_ge_init (fs : Fs) :
    ∀ (l : List (List String)) (p : List String × Int),
      p.2 ≤ (l.foldl (bestFold fs) p).2 := by
  intro l
  induction l with
  | nil => intro p; exact le_refl _
  | cons c t ih =>
    intro p
    simp only [List.foldl_cons]
    refine le_trans ?_ (ih (bestFold fs p c))
    by_cases hc : scoreRoot fs c > p.2
    · simp [bestFold, hc]; omega
    · simp [bestFold, hc]

theorem bestFold_ge_mem (fs : Fs) :
    ∀ (l : List (List String)) (p : List String × Int) (c : List String),
      c ∈ l → scoreRoot fs c ≤ (l.foldl (bestFold fs) p).2 := by
  intro l
  induction l with
  | nil => intro p c hc; simp at hc
  | cons a t ih =>
    intro p c hc
    simp only [List.foldl_cons]
    rcases List.mem_cons.mp hc with rfl | hc
    · refine le_trans ?_ (bestFold_ge_init fs t (bestFold fs p c))
      by_cases ha : scoreRoot fs c > p.2
      · simp [bestFold, ha]
      · simp [bestFold, ha]; omega
    · exact ih (bestFold fs p a) c hc

theorem bestFold_stay (fs : Fs) :
    ∀ (l : List (List String)) (p : List String × Int),
      (∀ c ∈ l, scoreRoot fs c ≤ p.2) → l.foldl (bestFold fs) p = p := by
  intro l
  induction l with
  | nil => intro p _; rfl
  | cons a t ih =>
    intro p hall
    simp only [List.foldl_cons]
    have ha : ¬ scoreRoot fs a > p.2 := by
      have := hall a (List.mem_cons_self a t)
      omega
    rw [show bestFold fs p a = p by simp [bestFold, ha]]
    exact ih p (fun c hc => hall c (List.mem_cons_of_mem a hc))

theorem bfsLevels_below (fs : Fs) (dir : List String) :
    ∀ (fuel : Nat) (frontier : List (List String)),
      (∀ p ∈ frontier, dir <+: p) →
      ∀ c ∈ bfsLevels fs fuel frontier, dir <+: c := by
  intro fuel
  induction fuel with
  | zero => intro frontier _ c hc; simp [bfsLevels] at hc
  | succ n ih =>
    intro frontier hf c hc
    simp only [bfsLevels, List.mem_append] at hc
    rcases hc with hc | hc
    · exact hf c hc
    · refine ih _ ?_ c hc
      intro q hq
      rcases List.mem_flatMap.mp hq with ⟨p, hp, hqp⟩
      have hpq : p <+: q := by
        simp only [childDirs, List.mem_filter] at hqp
        have := hqp.2
        simp only [Bool.and_eq_true] at this
        exact List.isPrefixOf_iff_prefix.mp this.1.2
      exact (hf p hp).trans hpq

theorem self_mem_rootCandidates (fs : Fs) (dir : List String) :
    dir ∈ rootCandidates fs dir := by
  simp [rootCandidates, bfsLevels]

theorem scoreRoot_nonneg (fs : Fs) (p : List String)
    (h : fsIsDir fs p = true) : 0 ≤ scoreRoot fs p := by
  simp only [scoreRoot, h, Bool.not_true, Bool.false_eq_true, if_false]
  split_ifs <;> omega

/-! ## Claim C7 -/

/-- C7: the project-root locator is total by construction; it returns
`destDir/hint` whenever the (non-empty) hint names an existing directory
directly below `destDir`; otherwise it returns a directory of the bounded
breadth-first candidate scan, lying at or below `destDir`, whose score is
maximal among all scanned candidates; and when no candidate scores above
zero it returns `destDir` itself. -/
theorem claim_C7 :
    ∀ (fs : Fs) (extractDir : List String) (hint : Option String)
      (lang : String),
      (hintHit fs extractDir hint = true →
        detectProjectRoot fs extractDir hint lang =
          extractDir ++ [hint.getD ("")] ∧
        fsIsDir fs (extractDir ++ [hint.getD ("")]) = true) ∧
      (hintHit fs extractDir hint = false →
        detectProjectRoot fs extractDir hint lang ∈
          rootCandidates fs extractDir ∧
        extractDir <+: detectProjectRoot fs extractDir hint lang ∧
        (∀ c ∈ rootCandidates fs extractDir,
          scoreRoot fs c ≤
            scoreRoot fs (detectProjectRoot fs extractDir hint lang)) ∧
        ((∀ c ∈ rootCandidates fs extractDir, scoreRoot fs c ≤ 0) →
          fsIsDir fs extractDir = true →
          detectProjectRoot fs extractDir hint lang = extractDir)) := by
  intro fs extractDir hint lang
  constructor
  · intro h
    refine ⟨by simp [detectProjectRoot, h], ?_⟩
    cases hint with
    | none => simp [hintHit] at h
    | some hh =>
      simp only [hintHit, Bool.and_eq_true] at h
      simpa using h.2
  · intro h
    have hbc : detectProjectRoot fs extractDir hint lang =
        bestCandidate fs extractDir := by
      simp [detectProjectRoot, h]
    rw [hbc]
    have hmem : bestCandidate fs extractDir ∈ rootCandidates fs extractDir := by
      rcases bestFold_fst_mem fs (rootCandidates fs extractDir)
          (extractDir, scoreRoot fs extractDir) with h1 | h1
      · simpa [bestCandidate, h1] using self_mem_rootCandidates fs extractDir
      · exact h1
    refine ⟨hmem, ?_, ?_, ?_⟩
    · refine bfsLevels_below fs extractDir _ [extractDir] ?_ _ hmem
      intro p hp
      simp only [List.mem_singleton] at hp
      exact hp ▸ List.prefix_refl extractDir
    · intro c hc
      have h2 := bestFold_ge_mem fs (rootCandidates fs extractDir)
        (extractDir, scoreRoot fs extractDir) c hc
      have h3 := bestFold_coherent fs (rootCandidates fs extractDir)
        (extractDir, scoreRoot fs extractDir) rfl
      rw [h3] at h2
      exact h2
    · intro hall hdir
      have h0 : 0 ≤ scoreRoot fs extractDir := scoreRoot_nonneg fs extractDir hdir
      have hstay := bestFold_stay fs (rootCandidates fs extractDir)
        (extractDir, scoreRoot fs extractDir)
        (fun c hc => le_trans (hall c hc) h0)
      simp [bestCandidate, hstay]

/-- Witness that both branches of `claim_C7` apply at concrete inputs. -/
theorem claim_C7_witness :
    detectProjectRoot ⟨[[("e")], [("e"), ("proj")]], []⟩ [("e")]
        (some ("proj")) ("python") = [("e"), ("proj")] ∧
    detectProjectRoot ⟨[[("e")]], []⟩ [("e")] none ("python") = [("e")] := by
  constructor
  · exact ((claim_C7 ⟨[[("e")], [("e"), ("proj")]], []⟩ [("e")]
      (some ("proj")) ("python")).1 (by decide)).1
  · exact ((claim_C7 ⟨[[("e")]], []⟩ [("e")] none ("python")).2
      (by decide)).2.2.2 (by decide) (by decide)

/-! ## Claim C4 -/

/-- C4, as stated, is false: the Java strategy (and likewise C/C++) checks
only that `cdxgen` resolves and returns a command even when the project
root contains no manifest file whatsoever. -/
theorem claim_C4_counterexample :
    ((buildBomCommand
        (fun t => if t == ("cdxgen") then some ("/usr/local/bin/cdxgen")
                  else none)
        ("/usr/bin/python3") ⟨[[("r")]], []⟩ ("java") ("u") [("r")]).1).isSome
      = true ∧
    rootHintFiles.all
      (fun n => ! fsExists ⟨[[("r")]], []⟩ ([("r")] ++ [n])) = true ∧
    cCppBuildMetadata.all
      (fun n => ! fsExists ⟨[[("r")]], []⟩ ([("r")] ++ [n])) = true := by
  decide

/-- C4 (amended): the Python, Go, PHP, JavaScript and Rust strategies
return `None` when their generator tool is unresolvable or their manifest
is missing (Python uses the running interpreter and so only requires a
manifest); the Java and C/C++ strategies require only that `cdxgen`
resolves and return a command even when no manifest exists in the root. -/
theorem claim_C4_amended :
    ∀ (which : String → Option String) (py : String) (fs : Fs)
      (root : List String) (uuid : String),
      (pickFirstExisting fs root pythonReqCandidates = none →
        fsExists fs (root ++ ["pyproject.toml"]) = false →
        (buildBomCommand which py fs ("python") uuid root).1 = none) ∧
      ((which ("cyclonedx-gomod") = none ∨
          fsExists fs (root ++ ["go.mod"]) = false) →
        (buildBomCommand which py fs ("golang") uuid root).1 = none) ∧
      ((which ("composer") = none ∨
          fsExists fs (root ++ ["composer.json"]) = false) →
        (buildBomCommand which py fs ("php") uuid root).1 = none) ∧
      ((which ("cyclonedx-npm") = none ∨
          fsExists fs (root ++ ["package.json"]) = false) →
        (buildBomCommand which py fs ("javascript") uuid root).1 = none) ∧
      ((which ("cargo") = none ∨ which ("cargo-cyclonedx") = none ∨
          fsExists fs (root ++ ["Cargo.toml"]) = false) →
        (buildBomCommand which py fs ("rust") uuid root).1 = none) ∧
      (which ("cdxgen") = none →
        (buildBomCommand which py fs ("java") uuid root).1 = none ∧
        (buildBomCommand which py fs ("c/c++") uuid root).1 = none) ∧
      (∀ p, which ("cdxgen") = some p →
        (buildBomCommand which py fs ("java") uuid root).1.isSome = true ∧
        (buildBomCommand which py fs ("c/c++") uuid root).1.isSome = true) := by
  intro which py fs root uuid
  refine ⟨?_, ?_, ?_, ?_, ?_, ?_, ?_⟩
  · intro h1 h2
    show buildPythonBom py fs root uuid = none
    simp [buildPythonBom, h1, h2]
  · intro h
    show buildGolangBom which fs root uuid = none
    cases hw : which ("cyclonedx-gomod") with
    | none => simp [buildGolangBom, hw]
    | some g =>
      rcases h with h | h
      · exact absurd hw (h ▸ by simp)
      · simp [buildGolangBom, hw, h]
  · intro h
    show buildPhpBom which fs root uuid = none
    cases hw : which ("composer") with
    | none => simp [buildPhpBom, hw]
    | some g =>
      rcases h with h | h
      · exact absurd hw (h ▸ by simp)
      · simp [buildPhpBom, hw, h]
  · intro h
    show buildJavascriptBom which fs root uuid = none
    cases hw : which ("cyclonedx-npm") with
    | none => simp [buildJavascriptBom, hw]
    | some g =>
      rcases h with h | h
      · exact absurd hw (h ▸ by simp)
      · simp [buildJavascriptBom, hw, h]
  · intro h
    show buildRustBom which fs root uuid = none
    cases hw : which ("cargo") with
    | none => simp [buildRustBom, hw]
    | some c1 =>
      cases hw2 : which ("cargo-cyclonedx") with
      | none => simp [buildRustBom, hw, hw2]
      | some c2 =>
        rcases h with h | h | h
        · exact absurd hw (h ▸ by simp)
        · exact absurd hw2 (h ▸ by simp)
        · simp [buildRustBom, hw, hw2, h]
  · intro h
    constructor
    · show buildJavaBom which root uuid = none
      simp [buildJavaBom, h]
    · show buildCCppBom which fs root uuid = none
      simp [buildCCppBom, h]
  · intro p hp
    constructor
    · show (buildJavaBom which root uuid).isSome = true
      simp [buildJavaBom, hp]
    · show (buildCCppBom which fs root uuid).isSome = true
      simp [buildCCppBom, hp]

/-- Witness that the hypotheses of `claim_C4_amended` are satisfiable. -/
theorem claim_C4_witness :
    (buildBomCommand (fun _ => none) ("/usr/bin/python3") ⟨[[("r")]], []⟩
        ("python") ("u") [("r")]).1 = none ∧
    (buildBomCommand (fun _ => none) ("/usr/bin/python3") ⟨[[("r")]], []⟩
        ("rust") ("u") [("r")]).1 = none := by
  constructor
  · exact (claim_C4_amended (fun _ => none) ("/usr/bin/python3")
      ⟨[[("r")]], []⟩ [("r")] ("u")).1 (by decide) (by decide)
  · exact (claim_C4_amended (fun _ => none) ("/usr/bin/python3")
      ⟨[[("r")]], []⟩ [("r")] ("u")).2.2.2.2.1 (Or.inl rfl)

/-! ## Claim C5 -/

/-- C5, as stated, is false in two parts: on timeout the two output-capture
tasks are never awaited before the `CmdResult` is constructed (the
`except TimeoutError` handler returns directly, so the trace contains no
await of either task and the captured output is empty), and the timeout
indicator 124 coincides with the result of a process that normally exits
with status 124. -/
theorem claim_C5_counterexample :
    (runCommandLogged (.runs true (some 0) ("out") ("err")) 7).2.contains
        .awaitStdoutTask = false ∧
    (runCommandLogged (.runs true (some 0) ("out") ("err")) 7).2.contains
        .awaitStderrTask = false ∧
    (runCommandLogged (.runs true (some 0) ("out") ("err")) 7).1 =
      ⟨124, "", "TIMEOUT", 7⟩ ∧
    (runCommandLogged (.runs false (some 124) ("x") ("y")) 7).1.returncode
      = 124 := by
  decide

/-- C5 (amended): on timeout the process is killed and awaited and the
result carries returncode 124 with empty captured output and stderr text
`TIMEOUT`; the capture tasks are started but not awaited before the result
is constructed.  A non-timed-out run awaits both capture tasks and reports
`int(returncode or 0)`, so 124 is a timeout indicator only by convention. -/
theorem claim_C5_amended :
    ∀ (rc : Option Int) (so se : String) (dur : Nat),
      runCommandLogged (.runs true rc so se) dur =
        (⟨124, "", "TIMEOUT", dur⟩,
         [.spawn, .startStdoutTask, .startStderrTask, .waitProc, .killProc,
          .waitProc]) ∧
      runCommandLogged (.runs false rc so se) dur =
        (⟨effRc rc, so, se, dur⟩,
         [.spawn, .startStdoutTask, .startStderrTask, .waitProc,
          .awaitStdoutTask, .awaitStderrTask]) := by
  intro rc so se dur
  exact ⟨rfl, rfl⟩

/-! ## Claim C6 -/

/-- C6, as stated, is false for the BOM upload: `update_project_bom` makes
exactly one POST with no retry, no inter-attempt delay and no surfaced
error text (it returns a bare boolean), while `create_project` under the
same failing responses performs three attempts. -/
theorem claim_C6_counterexample :
    updateProjectBom true (fun _ => ⟨500, ("boom"), none⟩) =
      (false, [.request]) ∧
    (updateProjectBom true (fun _ => ⟨500, ("boom"), none⟩)).2.count
        DxAct.sleep1s = 0 ∧
    (createProject (fun _ => ⟨500, ("boom"), none⟩)).2.count
        DxAct.request = 3 := by
  decide

/-- C6 (amended): `create_project` and `delete_project` retry up to three
attempts with a one-second delay after each failed attempt and surface the
last truncated error text after exhaustion (create succeeds only on 201,
delete on 200/202/204/404); the BOM upload makes a single attempt and
returns a boolean with no retry and no surfaced error text. -/
theorem claim_C6_amended :
    ∀ (resp : Nat → HttpResp),
      ((∀ i, i < 3 → (resp i).status ≠ 201) →
        createProject resp =
          (.error (("DX_CREATE_PROJECT_FAILED: ") ++ errOf (resp 2)),
           [.request, .sleep1s, .request, .sleep1s, .request, .sleep1s])) ∧
      ((∀ i, i < 3 → (resp i).status ≠ 200 ∧ (resp i).status ≠ 202 ∧
          (resp i).status ≠ 204 ∧ (resp i).status ≠ 404) →
        deleteProject resp =
          (.error (("DX_DELETE_PROJECT_FAILED: ") ++ errOf (resp 2)),
           [.request, .sleep1s, .request, .sleep1s, .request, .sleep1s])) ∧
      (∀ b, (updateProjectBom b resp).2.length ≤ 1) ∧
      (updateProjectBom false resp = (false, [])) ∧
      (updateProjectBom true resp =
        ((resp 0).status == 200 || (resp 0).status == 201, [.request])) := by
  intro resp
  refine ⟨?_, ?_, ?_, rfl, rfl⟩
  · intro h
    have e0 : ((resp 0).status == 201) = false :=
      beq_eq_false_iff_ne.mpr (h 0 (by omega))
    have e1 : ((resp 1).status == 201) = false :=
      beq_eq_false_iff_ne.mpr (h 1 (by omega))
    have e2 : ((resp 2).status == 201) = false :=
      beq_eq_false_iff_ne.mpr (h 2 (by omega))
    simp [createProject, createLoop, e0, e1, e2]
  · intro h
    obtain ⟨a0, b0, c0, d0⟩ := h 0 (by omega)
    obtain ⟨a1, b1, c1, d1⟩ := h 1 (by omega)
    obtain ⟨a2, b2, c2, d2⟩ := h 2 (by omega)
    simp [deleteProject, deleteLoop,
      beq_eq_false_iff_ne.mpr a0, beq_eq_false_iff_ne.mpr b0,
      beq_eq_false_iff_ne.mpr c0, beq_eq_false_iff_ne.mpr d0,
      beq_eq_false_iff_ne.mpr a1, beq_eq_false_iff_ne.mpr b1,
      beq_eq_false_iff_ne.mpr c1, beq_eq_false_iff_ne.mpr d1,
      beq_eq_false_iff_ne.mpr a2, beq_eq_false_iff_ne.mpr b2,
      beq_eq_false_iff_ne.mpr c2, beq_eq_false_iff_ne.mpr d2]
  · intro b
    cases b <;> simp [updateProjectBom]

/-- Witness that the hypotheses of `claim_C6_amended` are satisfiable. -/
theorem claim_C6_witness :
    createProject (fun _ => ⟨500, ("boom"), none⟩) =
      (.error (("DX_CREATE_PROJECT_FAILED: ") ++ errOf ⟨500, ("boom"), none⟩),
       [.request, .sleep1s, .request, .sleep1s, .request, .sleep1s]) ∧
    deleteProject (fun _ => ⟨500, ("boom"), none⟩) =
      (.error (("DX_DELETE_PROJECT_FAILED: ") ++ errOf ⟨500, ("boom"), none⟩),
       [.request, .sleep1s, .request, .sleep1s, .request, .sleep1s]) := by
  constructor
  · exact (claim_C6_amended (fun _ => ⟨500, ("boom"), none⟩)).1
      (fun i _ => by simp)
  · exact (claim_C6_amended (fun _ => ⟨500, ("boom"), none⟩)).2.1
      (fun i _ => by simp)

/-! ## Claim C8 -/

/-- C8: within one run, prepending the Pending status written at project
creation, every consecutive pair of persisted status writes either
advances by one (0 → 1 → 2 → 3) or moves to Failed (-1); -1 and 3 are
written only as the last status of the run; and no event of any kind (no
status write, no stage execution) follows a Failed write. -/
theorem claim_C8 :
    ∀ env : RunEnv,
      okStatusSeq (0 :: statusWrites (mainPipeline env).2) = true ∧
      noEventAfterFailed (mainPipeline env).2 = true := by
  intro env
  obtain ⟨eo, ee, re, ch, pr, mr, oe, du, up⟩ := env
  by_cases hpr : pr = 0 <;> by_cases hmr : mr = 0 <;>
    cases eo <;> cases re <;>
    rcases ch with _ | b <;> (try cases b) <;> cases oe <;> cases up <;>
    simp [mainPipeline, extractArchiveEv, makeDxBomEv, statusWrites,
      okStatusSeq, noEventAfterFailed, hpr, hmr]

/-! ## Claim C9 -/

/-- C9, as stated, is false: an exception raised by the upload HTTP call
(anything other than the caught `FileNotFoundError`, e.g. a connection
error) escapes the pipeline entry point; the run's last status write is 2
(Generating) and no Failed status is ever written. -/
theorem claim_C9_counterexample :
    (mainPipeline ⟨true, (""), true, some false, 0, 0, true, ("u"),
        .raises ("httpx.ConnectError")⟩).1 =
      .error ("httpx.ConnectError") ∧
    statusWrites (mainPipeline ⟨true, (""), true, some false, 0, 0, true,
        ("u"), .raises ("httpx.ConnectError")⟩).2 = [1, 2] := by
  decide

/-- When no status write raises, the refined pipeline coincides with the
reliable-write pipeline. -/
theorem mainPipelineX_agree :
    ∀ (env : RunEnvX), (∀ k, env.stRaise k = none) →
      mainPipelineX env = mainPipeline env.base := by
  intro env h
  obtain ⟨⟨eo, ee, re, ch, pr, mr, oe, du, up⟩, st⟩ := env
  simp only at h
  by_cases hpr : pr = 0 <;> by_cases hmr : mr = 0 <;>
    cases eo <;> cases re <;>
    rcases ch with _ | b <;> (try cases b) <;> cases oe <;> cases up <;>
    simp [mainPipelineX, mainPipeline, extractArchiveEv, makeDxBomEv,
      h 0, h 1, h 2, hpr, hmr]

/-- With reliable status writes, `main` returns normally whenever the
upload call does not raise. -/
theorem mainPipeline_ok_of_upload_ok :
    ∀ env : RunEnv, (∀ m, env.upload ≠ .raises m) →
      ∃ b, (mainPipeline env).1 = .ok b := by
  intro env h
  cases hup : env.upload with
  | raises m => exact absurd hup (h m)
  | succ =>
    by_cases hex : (extractArchiveEv env).1 <;>
      cases hgen : (makeDxBomEv env).1 <;>
      simp [mainPipeline, hup, hex, hgen]
  | failed =>
    by_cases hex : (extractArchiveEv env).1 <;>
      cases hgen : (makeDxBomEv env).1 <;>
      simp [mainPipeline, hup, hex, hgen]

/-- C9 (amended): exceptions inside extraction and supervised command
execution are captured and resolve to a Failed write, but `main` has two
uncaught raise sites — the upload HTTP call (only `FileNotFoundError` is
caught inside it) and every `_update_status` call (uncaught database
operations).  When neither raises, no exception escapes the pipeline
entry point; an exception from a status write escapes `main` just like an
upload error (shown here for the run's first write, before anything was
persisted), with no Failed status written by the pipeline; and with
reliable status writes the refined model coincides with `mainPipeline`. -/
theorem claim_C9_amended :
    ∀ env : RunEnvX,
      ((∀ m, env.base.upload ≠ .raises m) →
        (∀ k, env.stRaise k = none) →
        ∃ b, (mainPipelineX env).1 = .ok b) ∧
      (∀ m, env.stRaise 0 = some m →
        (mainPipelineX env).1 = .error m ∧
        statusWrites (mainPipelineX env).2 = []) ∧
      ((∀ k, env.stRaise k = none) →
        mainPipelineX env = mainPipeline env.base) := by
  intro env
  refine ⟨?_, ?_, mainPipelineX_agree env⟩
  · intro hup hnone
    rw [mainPipelineX_agree env hnone]
    exact mainPipeline_ok_of_upload_ok env.base hup
  · intro m hm
    simp [mainPipelineX, hm, statusWrites]

/-- Witness that the hypotheses of `claim_C9_amended` are satisfiable. -/
theorem claim_C9_witness :
    (∃ b, (mainPipelineX ⟨⟨true, (""), true, some false, 0, 0, true, ("u"),
        .failed⟩, fun _ => none⟩).1 = .ok b) ∧
    (mainPipelineX ⟨⟨true, (""), true, some false, 0, 0, true, ("u"),
        .succ⟩, fun _ => some ("db down")⟩).1 = .error ("db down") := by
  constructor
  · exact (claim_C9_amended ⟨⟨true, (""), true, some false, 0, 0, true,
      ("u"), .failed⟩, fun _ => none⟩).1 (fun m => by simp) (fun k => rfl)
  · exact ((claim_C9_amended ⟨⟨true, (""), true, some false, 0, 0, true,
      ("u"), .succ⟩, fun _ => some ("db down")⟩).2.1 ("db down") rfl).1

/-! ## Claim C10 -/

/-- C10: when a command was built, its (possible) pre-command and its main
command exited 0, but the expected output file does not exist, the
generation stage returns no artifact name and its last write is Failed
with the missing-output diagnostic; the pipeline performs no upload call
and its status writes are exactly 1, 2, -1. -/
theorem claim_C10 :
    ∀ (env : RunEnv) (b : Bool),
      env.extractOk = true → env.rootExists = true →
      env.cmdHasPre = some b → env.preRc = 0 → env.mainRc = 0 →
      env.outputExists = false →
      (makeDxBomEv env).1 = none ∧
      (makeDxBomEv env).2.getLast? =
        some (.status (-1)
          (some ("生成bom失败：命令执行成功但未发现输出文件"))) ∧
      PipeEv.uploadCall ∉ (mainPipeline env).2 ∧
      statusWrites (mainPipeline env).2 = [1, 2, -1] := by
  intro env b h1 h2 h3 h4 h5 h6
  obtain ⟨eo, ee, re, ch, pr, mr, oe, du, up⟩ := env
  simp only at h1 h2 h3 h4 h5 h6
  subst h1 h2 h3 h4 h5 h6
  cases b <;>
    simp [makeDxBomEv, mainPipeline, extractArchiveEv, statusWrites]

/-- Witness that the hypotheses of `claim_C10` are satisfiable. -/
theorem claim_C10_witness :
    (makeDxBomEv ⟨true, (""), true, some false, 0, 0, false, ("u"),
        .succ⟩).1 = none ∧
    statusWrites (mainPipeline ⟨true, (""), true, some false, 0, 0, false,
        ("u"), .succ⟩).2 = [1, 2, -1] := by
  have h := claim_C10 ⟨true, (""), true, some false, 0, 0, false, ("u"),
    .succ⟩ false rfl rfl rfl rfl rfl rfl
  exact ⟨h.1, h.2.2.2⟩

end Sbom
